import Mathlib

/-!
Verification development for the sudio audio cache core
(`src/sudio/audioutils/sync.py` and `src/sudio/audioutils/cacheutil.py`).

The Python source is shallowly embedded: byte buffers are `List Nat`
(each entry one byte value), numpy 1-D arrays of samples are lists of
fixed-width little-endian byte words (`List (List Nat)`), 2-D arrays are
lists of rows, machine integers are `Nat` with explicit range guards
where numpy would overflow, and fallible code returns `Except`.
External collaborators that are not under `src/` (the resampling kernel,
the sample-size lookup `Audio.get_sample_size`, the `SampleFormat` enum
tag for float32, and `shuffle2d_channels`) are either parameters of the
model (`AudioEnv`) or definitions explicitly marked `Modelled from the
spec:`.
-/

/-! ### Little-endian byte codec (numpy `u8` dtype, as used by
`np.asarray(head, dtype='u8')` and `np.frombuffer(cache_info, dtype='u8')`) -/

/-- Little-endian bytes of `n`, exactly `w` bytes (numpy fixed-width
unsigned integer layout). -/
def natToLEBytes : Nat → Nat → List Nat
  | 0, _ => []
  | w + 1, n => n % 256 :: natToLEBytes w (n / 256)

/-- Value of a little-endian byte list. -/
def leBytesToNat : List Nat → Nat
  | [] => 0
  | b :: bs => b + 256 * leBytesToNat bs

/-- Split a byte list into words of `w` bytes each, in order
(the grouping `np.frombuffer` performs for an itemsize-`w` dtype). -/
def chunk (w : Nat) (xs : List α) : List (List α) :=
  if w = 0 then []
  else (List.range ((xs.length + w - 1) / w)).map (fun i => (xs.drop (i * w)).take w)

/-- Python slice `xs[i::step]` (`step ≥ 1`): the elements at positions
`i, i + step, i + 2*step, ...`. -/
def sliceCount (len i step : Nat) : Nat :=
  if i < len then (len - i + step - 1) / step else 0

/-- Python slice `xs[i::step]` as a list. -/
def strided [Inhabited α] (i step : Nat) (xs : List α) : List α :=
  (List.range (sliceCount xs.length i step)).map (fun k => xs.getD (i + k * step) default)

/-! ### Cache header codec
`cacheutil.py` line 66 encodes the header with `np.asarray(head, dtype='u8')`;
line 147 decodes with `np.frombuffer(cache_info, dtype='u8')` followed by a
4-tuple unpacking (`csize, cframe_rate, csample_format, cnchannels = ...`). -/

/-- Decoded header fields in the order of `cacheutil.py` line 147 / the
write call sites (lines 174-177 and 198-201). -/
structure CacheHeader where
  byteSize : Nat
  frameRate : Nat
  sampleFormatId : Nat
  channelCount : Nat
deriving DecidableEq

/-- Serialization of a head tuple by `np.asarray(head, dtype='u8').tobytes()`:
each value as 8 little-endian bytes, concatenated in order. -/
def encodeHead (head : List Nat) : List Nat :=
  (head.map (natToLEBytes 8)).flatten

/-- Header encoding: the four fields in the fixed order byteSize, frameRate,
sampleFormatId, channelCount (`write_to_cached_file(record['size'],
record['frameRate'], ..., record['nchannels'], ...)`). -/
def encodeHeader (h : CacheHeader) : List Nat :=
  encodeHead [h.byteSize, h.frameRate, h.sampleFormatId, h.channelCount]

/-- Header decoding, `cacheutil.py` lines 146-147: `np.frombuffer(cache_info,
dtype='u8')` raises `ValueError` unless the byte count is a multiple of 8;
the 4-tuple unpacking of `.tolist()` raises `ValueError` unless exactly four
values result. `none` models the raised `ValueError`. -/
def decodeHeader (bs : List Nat) : Option CacheHeader :=
  if bs.length % 8 = 0 then
    match (chunk 8 bs).map leBytesToNat with
    | [a, b, c, d] => some ⟨a, b, c, d⟩
    | _ => none
  else none

/-! ### Audio synchronizer (`sync.py`, `synchronize_audio`)

Samples are modelled at byte granularity: a numpy 1-D array of samples
of an itemsize-`w` dtype is the list of its `w`-byte little-endian words
(`List (List Nat)`), a 2-D array is a list of rows.  All operations the
claims exercise (`np.vstack` of copies, strided slicing, interleaving,
and `astype` between identical dtypes, which numpy performs as a plain
copy) are value-agnostic, so the word-level view is faithful; numeric
conversions between distinct dtypes and the external resampling kernel
are capabilities supplied through `AudioEnv`. -/

/-- External collaborators of `sync.py` that are not under `src/`.
`getSampleSize` is `Audio.get_sample_size` (spec: width-in-bytes per
sample derivable from the tag via an external lookup, unknown tag
fails); `floatTag` is `SampleFormat.formatFloat32.value`; `resample` is
`samplerate.resample` on one channel stream (target rate, source rate);
`resampleDType` is the dtype of the kernel's output; `cast` is numpy
`astype` elementwise conversion between two distinct dtypes
(isFloat, width). -/
structure AudioEnv where
  getSampleSize : Nat → Option Nat
  floatTag : Nat
  resample : List (List Nat) → Nat → Nat → List (List Nat)
  resampleDType : Bool × Nat
  cast : Bool × Nat → Bool × Nat → List Nat → List Nat

/-- The `record['o']` slot: either an in-memory byte buffer or an open
handle to the cache file at `path`, positioned at `pos`. -/
inductive RecPayload
  | bytes (bs : List Nat)
  | handle (path : String) (pos : Nat)
deriving DecidableEq

/-- The audio record dictionary (`rec` / `record` in the source).
Python's float `duration` is modelled as an exact rational; no claim
depends on float rounding. `sampleFormat` is `none` when the Python
value is `None`. -/
structure Rec where
  o : RecPayload
  size : Nat
  frameRate : Nat
  nchannels : Nat
  sampleFormat : Option Nat
  duration : ℚ
deriving DecidableEq

/-- Errors surfaced by `synchronize_audio`: unknown sample-format tag
(`Audio.get_sample_size` raises), a buffer whose byte length does not
divide into whole samples (`np.frombuffer` raises `ValueError`), a
wrong number of positional arguments to `np.append` (`TypeError`:
`np.append(arr, values, axis)` takes exactly two array arguments),
rows of unequal length stacked on axis 0 (`ValueError`), and a zero
denominator in the duration formula (`ZeroDivisionError`). -/
inductive SyncErr
  | unsupportedFormat
  | bufferSize
  | appendArity
  | shapeMismatch
  | zeroDivision
deriving DecidableEq

/-- De-interleave step, `sync.py` line 60:
`data = [[data[i::rec['nchannels']]] for i in range(nchannels)]` —
`tgtCh` streams, each a slice with stride `srcCh` (the source channel
count). -/
def deinterleave [Inhabited α] (srcCh tgtCh : Nat) (xs : List α) : List (List α) :=
  (List.range tgtCh).map (fun i => strided i srcCh xs)

/-- The de-interleave step as the specification sentence describes it:
stream `i` uses the *target* channel count as the stride.  Stated only
to be compared against `deinterleave`, which is translated from the
source. -/
def deinterleaveSpec [Inhabited α] (tgtCh : Nat) (xs : List α) : List (List α) :=
  (List.range tgtCh).map (fun i => strided i tgtCh xs)

/-- Modelled from the spec: `shuffle2d_channels`
(`sudio.audioutils.channel`, not under `src/`) re-interleaves the
per-channel streams back into a single sample-major, channel-minor
sequence (spec section 4.4 step 4): output position `m` holds sample
`m / k` of channel `m % k`, for `k` channel rows. -/
def shuffle2d_channels [Inhabited α] (rows : List (List α)) : List α :=
  (List.range (rows.length * (rows.headD []).length)).map
    (fun m => (rows.getD (m % rows.length) []).getD (m / rows.length) default)

/-- Model of `np.append(*data, axis=0)`, `sync.py` line 61.
`numpy.append(arr, values, axis=None)` takes exactly two positional
array arguments: one stream raises `TypeError` (missing `values`),
three or more raise `TypeError` (`axis` given twice).  Two streams are
stacked on axis 0, which requires equal lengths. -/
def npAppendRows (streams : List (List α)) : Except SyncErr (List (List α)) :=
  match streams with
  | [a, b] => if a.length = b.length then .ok [a, b] else .error .shapeMismatch
  | _ => .error .appendArity

/-- Working sample data inside `synchronize_audio`: a numpy 1-D array
(mono) or 2-D array (one row per channel). -/
inductive SData
  | one (xs : List (List Nat))
  | many (rows : List (List (List Nat)))

/-- `synchronize_audio(rec, nchannels, sample_rate, sample_format_id)`
from `sync.py`, with `output_data` fixed to its default `'byte'` (the
only value the code under `src/` uses).  Mirrors the source line by
line: decode the buffer into samples, channel adjustment, optional rate
conversion, interleave for byte output, final dtype cast and
serialization, and the size/frameRate/duration bookkeeping. -/
def synchronize_audio (env : AudioEnv) (rec : Rec)
    (nchannels sample_rate sample_format_id : Nat) : Except SyncErr Rec :=
  -- form = Audio.get_sample_size(rec['sampleFormat'])  (raises on unknown tag / None)
  match rec.sampleFormat with
  | none => .error .unsupportedFormat
  | some srcFmt =>
  match env.getSampleSize srcFmt with
  | none => .error .unsupportedFormat
  | some w =>
  -- '<f{w}' for the float32 tag, '<i{w}' otherwise
  let srcD : Bool × Nat := (srcFmt == env.floatTag, w)
  -- data = np.frombuffer(rec['o'], form)
  match rec.o with
  | .handle _ _ => .error .bufferSize
  | .bytes bs =>
  if w = 0 ∨ bs.length % w ≠ 0 then .error .bufferSize else
  let data := chunk w bs
  -- channel adjustment; the mono-upmix branch also mutates rec['nchannels']
  let step2 : Except SyncErr (SData × Nat) :=
    if rec.nchannels = 1 then
      if nchannels > rec.nchannels then
        .ok (.many (List.replicate nchannels data), nchannels)
      else
        .ok (.one data, rec.nchannels)
    else
      match npAppendRows (deinterleave rec.nchannels nchannels data) with
      | .error e => .error e
      | .ok rows => .ok (.many rows, rec.nchannels)
  match step2 with
  | .error e => .error e
  | .ok (sdata, nch1) =>
  -- rate conversion (per channel, via the external kernel)
  let sdata1 : SData :=
    if sample_rate ≠ rec.frameRate then
      match sdata with
      | .one xs => .one (env.resample xs sample_rate rec.frameRate)
      | .many rows => .many (rows.map (fun r => env.resample r sample_rate rec.frameRate))
    else sdata
  let curD : Bool × Nat := if sample_rate ≠ rec.frameRate then env.resampleDType else srcD
  -- if output_data.startswith('b') and rec['nchannels'] > 1: shuffle2d_channels
  let sdata2 : SData :=
    if nch1 > 1 then
      match sdata1 with
      | .one xs => .one xs
      | .many rows => .one (shuffle2d_channels rows)
    else sdata1
  -- rec['nchannels'] = nchannels ; rec['sampleFormat'] = sample_format_id
  -- form = Audio.get_sample_size(sample_format_id)
  match env.getSampleSize sample_format_id with
  | none => .error .unsupportedFormat
  | some w2 =>
  let tgtD : Bool × Nat := (sample_format_id == env.floatTag, w2)
  let words : List (List Nat) :=
    match sdata2 with
    | .one xs => xs
    | .many rows => rows.flatten
  -- rec['o'] = data.astype(form).tobytes(): astype between identical
  -- dtypes is a plain copy, otherwise the elementwise conversion capability
  let outBytes : List Nat :=
    (if curD = tgtD then words else words.map (env.cast curD tgtD)).flatten
  let denom := sample_rate * nchannels * w2
  if denom = 0 then .error .zeroDivision else
  .ok { o := .bytes outBytes,
        size := outBytes.length,
        frameRate := sample_rate,
        nchannels := nchannels,
        sampleFormat := some sample_format_id,
        duration := (outBytes.length : ℚ) / (denom : ℚ) }

/-! ### Binary writer (`cacheutil.py`, `write_to_cached_file`) -/

/-- An open random-access file: its byte content and the current
position. -/
structure CFile where
  content : List Nat
  pos : Nat
deriving DecidableEq

/-- `file.seek(offset, whence)`: whence 0 = absolute, 1 = relative,
2 = from end (the source only uses whence 0 with non-negative
offsets). -/
def fileSeek (f : CFile) (off whence : Nat) : CFile :=
  { f with pos := match whence with
                  | 0 => off
                  | 1 => f.pos + off
                  | _ => f.content.length + off }

/-- `file.write(bs)`: overwrite at the current position, extending the
file as needed (zero-fill for a sparse seek past the end, which the
source never performs). -/
def fileWrite (f : CFile) (bs : List Nat) : CFile :=
  { content := f.content.take f.pos
        ++ List.replicate (f.pos - f.content.length) 0
        ++ bs
        ++ f.content.drop (f.pos + bs.length),
    pos := f.pos + bs.length }

/-- Write-target selection, `cacheutil.py` lines 48-53: an already-open
handle wins, else a truthy (non-empty) file name is opened, else
`ValueError` (`none`).  Python truthiness: an open `BufferedRandom` is
always truthy, the empty string is falsy. -/
inductive WriteTarget
  | existingHandle
  | openPath (name : String)
deriving DecidableEq

/-- Lines 48-53 of `write_to_cached_file`. -/
def select_write_target (buffered_random : Option Unit) (file_name : Option String) :
    Option WriteTarget :=
  if buffered_random.isSome then some .existingHandle
  else
    match file_name with
    | some s => if s = "" then none else some (.openPath s)
    | none => none

/-- Body of `write_to_cached_file` (lines 54-85) acting on the resolved
target file: pre-seek, pre-truncate, pre-flush, head write, data write,
post-seek, post-flush, in that fixed order.  The head tuple is written
as `np.asarray(head, dtype='u8')`, which raises `OverflowError` for a
value outside `[0, 2^64)` (`none`).  `data` is the in-memory-bytes
variant (`if data:` skips empty bytes, which writes nothing either
way); the streamed `BufferedRandom` variant is resolved to its bytes by
the caller in this model.  Flushes have no observable effect on the
state.  Returns the file and the total size written. -/
def write_to_cached_file (head : List Nat) (data : Option (List Nat)) (f : CFile)
    (pre_seek : Option (Nat × Nat)) (pre_truncate : Bool)
    (after_seek : Option (Nat × Nat)) : Option (CFile × Nat) :=
  if ¬ head.all (· < 2 ^ 64) then none else
  let f1 := match pre_seek with
            | some (off, wh) => fileSeek f off wh
            | none => f
  let f2 := if pre_truncate then { f1 with content := f1.content.take f1.pos } else f1
  let hb := encodeHead head
  let (f3, size1) := if head ≠ [] then (fileWrite f2 hb, hb.length) else (f2, 0)
  let (f4, size2) := match data with
                     | some d => (fileWrite f3 d, size1 + d.length)
                     | none => (f3, size1)
  let f5 := match after_seek with
            | some (off, wh) => fileSeek f4 off wh
            | none => f4
  some (f5, size2)

/-! ### Cache entry resolver (`cacheutil.py`, `handle_cached_record`)

The world state is a filesystem `FS` (association list path to bytes),
plus two contention oracles: `renameBusy p` means `os.rename(p, p)`
raises `OSError`, `openBusy p` means `open(p, ...)` raises `OSError`.
The retry loop is given fuel; the source loop is unbounded. -/

/-- Filesystem: path to file bytes. -/
abbrev FS : Type := List (String × List Nat)

/-- Look a path up. -/
def fsLookup : FS → String → Option (List Nat)
  | [], _ => none
  | (q, bs) :: rest, p => if q = p then some bs else fsLookup rest p

/-- `os.remove`. -/
def fsErase : FS → String → FS
  | [], _ => []
  | (q, bs) :: rest, p => if q = p then fsErase rest p else (q, bs) :: fsErase rest p

/-- Create or overwrite a file. -/
def fsInsert (fs : FS) (p : String) (bs : List Nat) : FS :=
  (p, bs) :: fsErase fs p

/-- Line 154 (`csample_format = csample_format if csample_format else
None`): a stored tag of 0 is exposed as `None`. -/
def exposeFormat (c : Nat) : Option Nat :=
  if c = 0 then none else some c

/-- Lines 176 and 200 (`record['sampleFormat'] if record['sampleFormat']
else 0`, the head argument of both `write_to_cached_file` call sites):
an unspecified sample format is serialized as 0. -/
def storeFormat : Option Nat → Nat
  | none => 0
  | some f => if f = 0 then 0 else f

/-- Errors surfaced by `handle_cached_record` (plus `fuelExhausted`,
which models non-termination of the unbounded retry loop, and
`storageFault` for propagated `OSError`s outside the loop's `try`). -/
inductive HandleErr
  | sync (e : SyncErr)
  | storageFault
  | headOverflow
  | fuelExhausted
  | unsupportedFormat
  | zeroDivision
deriving DecidableEq

/-- The contention retry loop, `cacheutil.py` lines 124-142.  Each
iteration asks the path service for a new candidate (`serve k`,
`k` increasing).  If the candidate exists, the self-rename probe and
the `open(new_path, 'rb+')` run; whether they raise `OSError`
(`continue`) or succeed, the loop body reaches its end without a
`break` and iterates again.  If the candidate does not exist, the
original entry at `orig` is opened (`OSError`, e.g. when `orig` is
itself busy or missing, continues the loop) and its bytes are copied in
chunks into the fresh candidate, then the loop breaks.  Returns the
adopted path and the updated filesystem, or `none` when the fuel runs
out. -/
def resolve_conflict : Nat → (Nat → String) → Nat → FS →
    (String → Bool) → (String → Bool) → String → Option (String × FS)
  | 0, _, _, _, _, _, _ => none
  | fuel + 1, serve, k, fs, renameBusy, openBusy, orig =>
    let np := serve k
    match fsLookup fs np with
    | some _ =>
      if renameBusy np ∨ openBusy np then
        -- OSError: data already opened in another process, continue trying
        resolve_conflict fuel serve (k + 1) fs renameBusy openBusy orig
      else
        -- the probe passes and the file opens, but there is no break:
        -- the loop requests a further candidate anyway
        resolve_conflict fuel serve (k + 1) fs renameBusy openBusy orig
    | none =>
      match fsLookup fs orig, openBusy orig with
      | some ob, false => some (np, fsInsert fs np ob)
      | _, _ =>
        -- open(path, 'rb+') raised OSError: continue trying
        resolve_conflict fuel serve (k + 1) fs renameBusy openBusy orig

/-- Ambient configuration (`master_obj`): the global synchronization
targets, the cache listing `_cache()`, and the `CACHE_INFO` class
constant (the header's encoded width). -/
structure MasterObj where
  sample_format : Nat
  nchannels : Nat
  sample_rate : Nat
  cache : List String
  CACHE_INFO : Nat

/-- Call arguments of `handle_cached_record`. -/
structure HandleArgs where
  record : Rec
  serve : Nat → String
  master : MasterObj
  decoder : Option (List Nat)
  sync_sample_format_id : Option Nat
  sync_nchannels : Option Nat
  sync_sample_rate : Option Nat
  safe_load : Bool

/-- The `except DecodeError` handler, `cacheutil.py` lines 189-208:
obtain a payload (from the decoder when present, else the record's
current `'o'`), compute `record['size']` as payload length plus
`CACHE_INFO` for in-memory bytes or `os.path.getsize` for a handle,
and write header plus payload to `path` opened `'wb+'` (fresh,
truncated), leaving the position just after the header. -/
def cache_miss_rebuild (record : Rec) (path : String) (hdrWidth : Nat)
    (decoder : Option (List Nat)) (fs : FS) (removed : List String) :
    Except HandleErr (Rec × FS × List String) :=
  let payload : RecPayload :=
    match decoder with
    | some d => .bytes d
    | none => record.o
  let sizeRes : Option Nat :=
    match payload with
    | .bytes b => some (b.length + hdrWidth)
    | .handle p _ => (fsLookup fs p).map List.length
  match sizeRes with
  | none => .error .storageFault
  | some sz =>
    let dataBytes : List Nat :=
      match payload with
      | .bytes b => b
      | .handle p pos => ((fsLookup fs p).getD []).drop pos
    match write_to_cached_file [sz, record.frameRate, storeFormat record.sampleFormat,
        record.nchannels] (some dataBytes) ⟨[], 0⟩ (some (0, 0)) true
        (some (hdrWidth, 0)) with
    | none => .error .headOverflow
    | some (file1, _) =>
      .ok ({ record with o := .handle path file1.pos, size := sz },
           fsInsert fs path file1.content, removed)

/-- Line 210: `record['duration'] = record['size'] / (record['frameRate']
* record['nchannels'] * Audio.get_sample_size(record['sampleFormat']))`.
Runs on every exit path.  An unknown (or `None`) sample format raises in
`get_sample_size`; a zero denominator raises `ZeroDivisionError`. -/
def finish_record (env : AudioEnv) (rec : Rec) : Except HandleErr Rec :=
  match rec.sampleFormat.bind env.getSampleSize with
  | none => .error .unsupportedFormat
  | some w =>
    let denom := rec.frameRate * rec.nchannels * w
    if denom = 0 then .error .zeroDivision
    else .ok { rec with duration := (rec.size : ℚ) / (denom : ℚ) }

/-- `handle_cached_record` from `cacheutil.py`, for a dict record (the
pandas-`Series` name extraction of lines 213-218 does not apply).
Returns the record, the filesystem, and the list of paths passed to
`os.remove`.  Flow: resolve the sync targets (lines 112-114), take the
first path from the service; on a cache hit probe it (`os.rename(path,
path)` and `open(path, 'rb+')`, both of whose `OSError`s enter the
retry loop), read and decode the header, then reuse, resynchronize, or
treat a decode failure as a miss after removing the corrupt file; on a
miss rebuild via the decoder.  The duration update runs last on every
path. -/
def handle_cached_record (fuel : Nat) (env : AudioEnv) (a : HandleArgs)
    (fs : FS) (renameBusy openBusy : String → Bool) :
    Except HandleErr (Rec × FS × List String) :=
  let sfmt := a.sync_sample_format_id.getD a.master.sample_format
  let snch := a.sync_nchannels.getD a.master.nchannels
  let srate := a.sync_sample_rate.getD a.master.sample_rate
  let path := a.serve 0
  let core : Except HandleErr (Rec × FS × List String) :=
    if path ∈ a.master.cache then
      -- probe: os.rename(path, path); open(path, 'rb+'); OSError → retry loop
      let hitRes : Except HandleErr (String × FS) :=
        if renameBusy path ∨ openBusy path ∨ (fsLookup fs path).isNone then
          match resolve_conflict fuel a.serve 1 fs renameBusy openBusy path with
          | some (np, fs1) => .ok (np, fs1)
          | none => .error .fuelExhausted
        else .ok (path, fs)
      match hitRes with
      | .error e => .error e
      | .ok (fpath, fs1) =>
        match fsLookup fs1 fpath with
        | none => .error .storageFault
        | some content =>
          -- f.seek(0, 0); cache_info = f.read(CACHE_INFO)
          let readLen := min a.master.CACHE_INFO content.length
          match decodeHeader (content.take a.master.CACHE_INFO) with
          | none =>
            -- bad cache: f.close(); os.remove(f.name); raise DecodeError
            cache_miss_rebuild { a.record with o := .handle fpath readLen } path
              a.master.CACHE_INFO a.decoder (fsErase fs1 fpath) [fpath]
          | some h =>
            let rec1 : Rec :=
              { a.record with
                o := RecPayload.handle fpath readLen
                size := h.byteSize
                frameRate := h.frameRate
                nchannels := h.channelCount
                sampleFormat := exposeFormat h.sampleFormatId }
            if h.channelCount = snch ∧ exposeFormat h.sampleFormatId = some sfmt ∧
                h.frameRate = srate then
              .ok (rec1, fs1, [])
            else if a.safe_load then
              -- record['o'] = f.read(); synchronize; rewrite in place
              let payload := content.drop readLen
              match synchronize_audio env { rec1 with o := .bytes payload }
                  snch srate sfmt with
              | .error e => .error (.sync e)
              | .ok rec2 =>
                let outBytes : List Nat :=
                  match rec2.o with
                  | .bytes b => b
                  | .handle _ _ => []
                match write_to_cached_file [rec2.size, rec2.frameRate,
                    storeFormat rec2.sampleFormat, rec2.nchannels] (some outBytes)
                    ⟨content, content.length⟩ (some (0, 0)) true
                    (some (a.master.CACHE_INFO, 0)) with
                | none => .error .headOverflow
                | some (file1, _) =>
                  .ok ({ rec2 with o := .handle fpath file1.pos },
                       fsInsert fs1 fpath file1.content, [])
            else
              .ok (rec1, fs1, [])
    else
      -- raise DecodeError: entry absent
      cache_miss_rebuild a.record path a.master.CACHE_INFO a.decoder fs []
  match core with
  | .error e => .error e
  | .ok (r, fs2, removed) =>
    match finish_record env r with
    | .error e => .error e
    | .ok r2 => .ok (r2, fs2, removed)

/-- A concrete environment for witnesses and counterexamples: tag 1 is a
2-byte integer format, tag 7 is the float32 tag (4 bytes); the resampling
kernel and cross-dtype casts are identity stubs (no witness exercises
them, every witness keeps the sample rate and format fixed). -/
def testEnv : AudioEnv where
  getSampleSize := fun f => if f = 1 then some 2 else if f = 7 then some 4 else none
  floatTag := 7
  resample := fun xs _ _ => xs
  resampleDType := (true, 8)
  cast := fun _ _ w => w

/-- Path service for contention witnesses: candidate 0 is "a", the first
retry candidate is "b" (which exists), the second is "c" (fresh). -/
def serveW : Nat → String :=
  fun k => if k = 0 then "a" else if k = 1 then "b" else "c"

/-- Filesystem for contention witnesses: the original entry "a" and an
unrelated existing entry "b". -/
def fsW : FS := [("a", [1, 2, 3]), ("b", [9])]

/-- Rename-probe oracle for witnesses: only "a" is rename-busy. -/
def busyA : String → Bool := fun p => p == "a"

/-- Open oracle for witnesses: nothing is open-busy. -/
def busyNone : String → Bool := fun _ => false

/-- Concrete arguments for the corrupt-header witness: the cache lists
"p", whose file is 3 bytes long (shorter than the 32-byte header), and
the decoder produces a fresh 4-byte payload. -/
def argsC3 : HandleArgs where
  record := { o := RecPayload.bytes [], size := 0, frameRate := 8000,
              nchannels := 1, sampleFormat := some 1, duration := 0 }
  serve := fun _ => "p"
  master := { sample_format := 1, nchannels := 1, sample_rate := 8000,
              cache := ["p"], CACHE_INFO := 32 }
  decoder := some [9, 9, 9, 9]
  sync_sample_format_id := none
  sync_nchannels := none
  sync_sample_rate := none
  safe_load := true

/-- Filesystem for the corrupt-header witness: "p" holds 3 bytes. -/
def fsC3 : FS := [("p", [1, 2, 3])]

/-- Concrete arguments for the miss/rebuild witness: the cache is empty,
the decoder produces a fresh 4-byte payload. -/
def argsC2 : HandleArgs where
  record := { o := RecPayload.bytes [], size := 0, frameRate := 8000,
              nchannels := 1, sampleFormat := some 1, duration := 0 }
  serve := fun _ => "p"
  master := { sample_format := 1, nchannels := 1, sample_rate := 8000,
              cache := [], CACHE_INFO := 32 }
  decoder := some [9, 9, 9, 9]
  sync_sample_format_id := none
  sync_nchannels := none
  sync_sample_rate := none
  safe_load := true

/-- Concrete arguments for the reuse and resynchronization witnesses:
the cache lists "q" and the sync targets are mono, 8000 Hz, tag 1. -/
def argsC2q : HandleArgs where
  record := { o := RecPayload.bytes [], size := 0, frameRate := 8000,
              nchannels := 1, sampleFormat := some 1, duration := 0 }
  serve := fun _ => "q"
  master := { sample_format := 1, nchannels := 1, sample_rate := 8000,
              cache := ["q"], CACHE_INFO := 32 }
  decoder := none
  sync_sample_format_id := none
  sync_nchannels := none
  sync_sample_rate := none
  safe_load := true

/-- Filesystem for the reuse witness: "q" holds a matching header
(byteSize 100, 8000 Hz, tag 1, mono) and two payload bytes. -/
def fsQ : FS := [("q", encodeHead [100, 8000, 1, 1] ++ [7, 7])]

/-- Filesystem for the resynchronization witness: "q" holds a header
whose stored rate 4000 mismatches the 8000 Hz target. -/
def fsS : FS := [("q", encodeHead [2, 4000, 1, 1] ++ [5, 6])]

/-! ## Theorems -/

theorem length_natToLEBytes (w n : Nat) : (natToLEBytes w n).length = w := by
  induction w generalizing n with
  | zero => rfl
  | succ w ih => simp [natToLEBytes, ih]

theorem leBytesToNat_natToLEBytes (w n : Nat) (h : n < 256 ^ w) :
    leBytesToNat (natToLEBytes w n) = n := by
  induction w generalizing n with
  | zero =>
    simp [natToLEBytes, leBytesToNat]
    omega
  | succ w ih =>
    have hdiv : n / 256 < 256 ^ w := by
      apply Nat.div_lt_of_lt_mul
      have : 256 ^ (w + 1) = 256 ^ w * 256 := by ring
      omega
    simp [natToLEBytes, leBytesToNat, ih _ hdiv]
    omega

/-! ### List helper lemmas -/

theorem getD_map_range [Inhabited α] (f : Nat → α) (n k : Nat) :
    ((List.range n).map f).getD k default = if k < n then f k else default := by
  by_cases h : k < n
  · rw [List.getD_eq_getElem?_getD, List.getElem?_map, List.getElem?_range h]
    simp [h]
  · rw [List.getD_eq_default _ _ (by simpa using by omega : ((List.range n).map f).length ≤ k)]
    simp [h]

theorem getD_mem_of_lt [Inhabited α] (l : List α) (n : Nat) (h : n < l.length) :
    l.getD n default ∈ l := by
  rw [List.getD_eq_getElem?_getD, List.getElem?_eq_getElem h]
  exact List.getElem_mem h

theorem map_getD_range [Inhabited α] (xs : List α) :
    (List.range xs.length).map (fun j => xs.getD j default) = xs := by
  induction xs with
  | nil => rfl
  | cons x t ih =>
    have hlen : (x :: t).length = t.length + 1 := rfl
    rw [hlen, List.range_succ_eq_map, List.map_cons, List.map_map]
    have hcomp : ((fun j => (x :: t).getD j default) ∘ Nat.succ)
        = (fun j => t.getD j default) := by
      funext j
      simp [Function.comp, List.getD_cons_succ]
    rw [hcomp, ih]
    rfl

theorem le_ceil_div_mul (a step : Nat) (h : 0 < step) :
    a ≤ ((a + step - 1) / step) * step := by
  rcases Nat.eq_zero_or_pos a with rfl | ha
  · simp
  · obtain ⟨b, rfl⟩ : ∃ b, a = b + 1 := ⟨a - 1, by omega⟩
    have h1 : b + 1 + step - 1 = b + step := by omega
    rw [h1, Nat.add_div_right _ h, Nat.succ_mul, Nat.mul_comm (b / step) step]
    have h2 := Nat.div_add_mod b step
    have h3 : b % step < step := Nat.mod_lt _ h
    omega

theorem length_strided [Inhabited α] (i step : Nat) (xs : List α) :
    (strided i step xs).length = sliceCount xs.length i step := by
  simp [strided]

theorem sliceCount_mul_le (len i step : Nat) (h : 0 < step) :
    len ≤ i + sliceCount len i step * step := by
  unfold sliceCount
  by_cases hi : i < len
  · rw [if_pos hi]
    have h2 := le_ceil_div_mul (len - i) step h
    omega
  · rw [if_neg hi]
    omega

theorem getD_strided [Inhabited α] (i step : Nat) (xs : List α) (h : 0 < step) (k : Nat) :
    (strided i step xs).getD k default = xs.getD (i + k * step) default := by
  unfold strided
  rw [getD_map_range]
  by_cases hk : k < sliceCount xs.length i step
  · rw [if_pos hk]
  · rw [if_neg hk]
    have h1 := sliceCount_mul_le xs.length i step h
    have h2 : sliceCount xs.length i step * step ≤ k * step :=
      Nat.mul_le_mul_right _ (by omega)
    exact (List.getD_eq_default _ _ (by omega)).symm

theorem sliceCount_mul (step L i : Nat) (hi : i < step) :
    sliceCount (step * L) i step = L := by
  unfold sliceCount
  rcases Nat.eq_zero_or_pos L with rfl | hL
  · simp
  · have hlen : i < step * L := lt_of_lt_of_le hi (Nat.le_mul_of_pos_right step hL)
    rw [if_pos hlen]
    have h1 : step * L - i + step - 1 = (step - 1 - i) + L * step := by
      have hc : step * L = L * step := Nat.mul_comm step L
      omega
    rw [h1, Nat.add_mul_div_right _ _ (by omega : 0 < step),
      Nat.div_eq_of_lt (by omega : step - 1 - i < step)]
    omega

theorem sliceCount_even_zero (N : Nat) (h : N % 2 = 0) : sliceCount N 0 2 = N / 2 := by
  unfold sliceCount
  split <;> omega

theorem sliceCount_even_one (N : Nat) (h : N % 2 = 0) : sliceCount N 1 2 = N / 2 := by
  unfold sliceCount
  split <;> omega

theorem chunk_nil (w : Nat) : chunk w ([] : List α) = [] := by
  unfold chunk
  rcases Nat.eq_zero_or_pos w with rfl | hw
  · simp
  · rw [if_neg (by omega)]
    simp only [List.length_nil]
    rw [Nat.div_eq_of_lt (by omega : 0 + w - 1 < w)]
    rfl

theorem chunk_append (w : Nat) (l xs : List α) (hl : l.length = w) (hw : 0 < w) :
    chunk w (l ++ xs) = l :: chunk w xs := by
  unfold chunk
  rw [if_neg (by omega), if_neg (by omega)]
  have hlen : (l ++ xs).length = w + xs.length := by simp [hl]
  rw [hlen]
  have hn : (w + xs.length + w - 1) / w = (xs.length + w - 1) / w + 1 := by
    have h1 : w + xs.length + w - 1 = (xs.length + w - 1) + w := by omega
    rw [h1, Nat.add_div_right _ hw]
  rw [hn, List.range_succ_eq_map, List.map_cons, List.map_map]
  congr 1
  · rw [Nat.zero_mul, List.drop_zero, List.take_left' hl]
  · apply List.map_congr_left
    intro i _
    simp only [Function.comp]
    have h2 : Nat.succ i * w = w + i * w := by
      rw [Nat.succ_mul]
      omega
    rw [h2, ← List.drop_drop, List.drop_left' hl]

theorem flatten_chunk (w : Nat) (hw : 0 < w) (xs : List α) (hdvd : w ∣ xs.length) :
    (chunk w xs).flatten = xs := by
  obtain ⟨n, hn⟩ := hdvd
  induction n generalizing xs with
  | zero =>
    have hx : xs = [] := List.eq_nil_of_length_eq_zero (by omega)
    subst hx
    simp [chunk_nil]
  | succ n ih =>
    have hsplit := List.take_append_drop w xs
    have hlt : (xs.take w).length = w := by
      rw [List.length_take]
      have : w * (n + 1) = w * n + w := by ring
      omega
    have hdl : (xs.drop w).length = w * n := by
      rw [List.length_drop]
      have : w * (n + 1) = w * n + w := by ring
      omega
    calc (chunk w xs).flatten
        = (chunk w (xs.take w ++ xs.drop w)).flatten := by rw [hsplit]
      _ = (xs.take w :: chunk w (xs.drop w)).flatten := by
            rw [chunk_append w _ _ hlt hw]
      _ = xs.take w ++ (chunk w (xs.drop w)).flatten := by simp
      _ = xs.take w ++ xs.drop w := by rw [ih _ hdl]
      _ = xs := hsplit

theorem chunk_flatten (w : Nat) (hw : 0 < w) (ws : List (List α))
    (hall : ∀ l ∈ ws, l.length = w) : chunk w ws.flatten = ws := by
  induction ws with
  | nil => simpa using chunk_nil w
  | cons l rest ih =>
    rw [List.flatten_cons, chunk_append w l _ (hall l (by simp)) hw,
      ih (fun l' hl' => hall l' (by simp [hl']))]

theorem mem_chunk_length (w : Nat) (hw : 0 < w) (xs : List α) (hdvd : w ∣ xs.length)
    (l : List α) (hmem : l ∈ chunk w xs) : l.length = w := by
  obtain ⟨n, hn⟩ := hdvd
  unfold chunk at hmem
  rw [if_neg (by omega)] at hmem
  obtain ⟨i, hi, rfl⟩ := List.mem_map.1 hmem
  have hi' : i < (xs.length + w - 1) / w := List.mem_range.1 hi
  have hnum : (xs.length + w - 1) / w = n := by
    rw [hn]
    have h1 : w * n + w - 1 = w * n + (w - 1) := by omega
    rw [h1, Nat.mul_add_div hw, Nat.div_eq_of_lt (by omega : w - 1 < w)]
    omega
  rw [hnum] at hi'
  have hle : (i + 1) * w ≤ n * w := Nat.mul_le_mul_right w (by omega)
  have hiw : i * w + w ≤ xs.length := by
    have h2 : (i + 1) * w = i * w + w := by ring
    have h3 : n * w = w * n := Nat.mul_comm n w
    omega
  rw [List.length_take, List.length_drop]
  omega

theorem length_chunk (w : Nat) (hw : 0 < w) (xs : List α) (hdvd : w ∣ xs.length) :
    (chunk w xs).length = xs.length / w := by
  obtain ⟨n, hn⟩ := hdvd
  unfold chunk
  rw [if_neg (by omega)]
  simp only [List.length_map, List.length_range]
  rw [hn]
  have h1 : w * n + w - 1 = w * n + (w - 1) := by omega
  rw [h1, Nat.mul_add_div hw, Nat.div_eq_of_lt (by omega : w - 1 < w),
    Nat.mul_div_cancel_left n hw]
  omega

theorem sum_map_length_const (S : List (List α)) (w : Nat)
    (h : ∀ x ∈ S, x.length = w) : (S.map List.length).sum = S.length * w := by
  induction S with
  | nil => simp
  | cons x rest ih =>
    simp only [List.map_cons, List.sum_cons, List.length_cons]
    rw [h x (by simp), ih (fun y hy => h y (by simp [hy])), Nat.succ_mul]
    omega

theorem getD_replicate_of_lt (k j : Nat) (a d : List α) (h : j < k) :
    (List.replicate k a).getD j d = a := by
  simp [List.getD_eq_getElem?_getD, List.getElem?_replicate, h]

theorem shuffle_replicate [Inhabited α] (k : Nat) (hk : 0 < k) (ws : List α) :
    shuffle2d_channels (List.replicate k ws) =
      (List.range (k * ws.length)).map (fun m => ws.getD (m / k) default) := by
  unfold shuffle2d_channels
  rw [List.length_replicate]
  have hhead : (List.replicate k ws).headD [] = ws := by
    cases k with
    | zero => omega
    | succ k => rfl
  rw [hhead]
  apply List.map_congr_left
  intro m hm
  rw [getD_replicate_of_lt k _ _ _ (Nat.mod_lt _ hk)]

theorem strided_shuffle_replicate [Inhabited α] (k i : Nat) (hik : i < k)
    (ws : List α) :
    strided i k (shuffle2d_channels (List.replicate k ws)) = ws := by
  have hk : 0 < k := by omega
  rw [shuffle_replicate k hk ws]
  unfold strided
  have hlen : ((List.range (k * ws.length)).map
      (fun m => ws.getD (m / k) default)).length = k * ws.length := by simp
  rw [hlen, sliceCount_mul k ws.length i hik]
  have hcong : ∀ j ∈ List.range ws.length,
      ((List.range (k * ws.length)).map (fun m => ws.getD (m / k) default)).getD
          (i + j * k) default = ws.getD j default := by
    intro j hj
    have hjl : j < ws.length := List.mem_range.1 hj
    rw [getD_map_range]
    have h1 : (j + 1) * k ≤ ws.length * k := Nat.mul_le_mul_right k (by omega)
    have h2 : (j + 1) * k = j * k + k := by rw [Nat.succ_mul]
    have h3 : ws.length * k = k * ws.length := Nat.mul_comm _ _
    rw [if_pos (by omega)]
    have hdiv : (i + j * k) / k = j := by
      rw [Nat.add_mul_div_right _ _ hk, Nat.div_eq_of_lt hik]
      omega
    rw [hdiv]
  rw [List.map_congr_left hcong, map_getD_range]

theorem shuffle_two_strided [Inhabited α] (xs : List α) (h2 : xs.length % 2 = 0) :
    shuffle2d_channels [strided 0 2 xs, strided 1 2 xs] = xs := by
  have hl0 : (strided 0 2 xs).length = xs.length / 2 := by
    rw [length_strided, sliceCount_even_zero _ h2]
  have hstep : shuffle2d_channels [strided 0 2 xs, strided 1 2 xs]
      = (List.range (2 * (xs.length / 2))).map
          (fun m => ([strided 0 2 xs, strided 1 2 xs].getD (m % 2) []).getD
            (m / 2) default) := by
    unfold shuffle2d_channels
    rw [show ([strided 0 2 xs, strided 1 2 xs] : List (List α)).length = 2 from rfl,
      show ([strided 0 2 xs, strided 1 2 xs] : List (List α)).headD []
        = strided 0 2 xs from rfl, hl0]
  rw [hstep, show 2 * (xs.length / 2) = xs.length by omega]
  have hcong : ∀ m ∈ List.range xs.length,
      ([strided 0 2 xs, strided 1 2 xs].getD (m % 2) []).getD (m / 2) default
        = xs.getD m default := by
    intro m hm
    rcases Nat.mod_two_eq_zero_or_one m with hm2 | hm2
    · rw [hm2]
      show (strided 0 2 xs).getD (m / 2) default = xs.getD m default
      rw [getD_strided 0 2 xs (by omega) (m / 2)]
      congr 1
      omega
    · rw [hm2]
      show (strided 1 2 xs).getD (m / 2) default = xs.getD m default
      rw [getD_strided 1 2 xs (by omega) (m / 2)]
      congr 1
      omega
  rw [List.map_congr_left hcong, map_getD_range]

theorem getD_deinterleave [Inhabited α] (srcCh tgtCh : Nat) (xs : List α)
    (i : Nat) (hi : i < tgtCh) :
    (deinterleave srcCh tgtCh xs).getD i [] = strided i srcCh xs := by
  unfold deinterleave
  show ((List.range tgtCh).map (fun i => strided i srcCh xs)).getD i default
      = strided i srcCh xs
  rw [getD_map_range, if_pos hi]

/-! ## Claim theorems -/

/-- C4: for every header with all four fields in `[0, 2^64)`, decoding
the 32 little-endian bytes produced by encoding it (byteSize, frameRate,
sampleFormatId, channelCount, each as an 8-byte unsigned little-endian
integer) yields the header back. -/
theorem c4_theorem (h : CacheHeader) (h1 : h.byteSize < 2 ^ 64)
    (h2 : h.frameRate < 2 ^ 64) (h3 : h.sampleFormatId < 2 ^ 64)
    (h4 : h.channelCount < 2 ^ 64) :
    decodeHeader (encodeHeader h) = some h := by
  have hpow : (256 : Nat) ^ 8 = 2 ^ 64 := by norm_num
  have henc : encodeHeader h = ([natToLEBytes 8 h.byteSize, natToLEBytes 8 h.frameRate,
      natToLEBytes 8 h.sampleFormatId, natToLEBytes 8 h.channelCount]
        : List (List Nat)).flatten := rfl
  have hchunk : chunk 8 (encodeHeader h) = [natToLEBytes 8 h.byteSize,
      natToLEBytes 8 h.frameRate, natToLEBytes 8 h.sampleFormatId,
      natToLEBytes 8 h.channelCount] := by
    rw [henc]
    apply chunk_flatten 8 (by omega)
    intro l hl
    simp only [List.mem_cons, List.not_mem_nil, or_false] at hl
    rcases hl with rfl | rfl | rfl | rfl <;> exact length_natToLEBytes 8 _
  have hlen : (encodeHeader h).length = 32 := by
    rw [henc]
    simp [List.length_flatten, length_natToLEBytes]
  unfold decodeHeader
  rw [if_pos (by rw [hlen]), hchunk]
  simp only [List.map_cons, List.map_nil]
  rw [leBytesToNat_natToLEBytes 8 _ (by omega),
    leBytesToNat_natToLEBytes 8 _ (by omega),
    leBytesToNat_natToLEBytes 8 _ (by omega),
    leBytesToNat_natToLEBytes 8 _ (by omega)]

/-- Witness for C4 at a concrete header. -/
theorem c4_witness :
    (1 : Nat) < 2 ^ 64 ∧ (44100 : Nat) < 2 ^ 64 ∧ (8 : Nat) < 2 ^ 64 ∧
      (2 : Nat) < 2 ^ 64 ∧
      decodeHeader (encodeHeader ⟨1, 44100, 8, 2⟩) = some ⟨1, 44100, 8, 2⟩ :=
  ⟨by norm_num, by norm_num, by norm_num, by norm_num,
    c4_theorem ⟨1, 44100, 8, 2⟩ (by norm_num) (by norm_num) (by norm_num) (by norm_num)⟩

/-- C1 counterexample: a 6-sample buffer with source channel count 3 and
target channel count 2.  The code's de-interleave (`deinterleave`, stride =
source count 3) gives streams `[0,3]` and `[1,4]`; the claim's version
(`deinterleaveSpec`, stride = target count 2) would give `[0,2,4]` and
`[1,3,5]`.  They differ, so the de-interleave step does not use the target
channel count as the stride. -/
theorem c1_counterexample :
    deinterleave 3 2 [0, 1, 2, 3, 4, 5] ≠ deinterleaveSpec 2 [0, 1, 2, 3, 4, 5]
      ∧ deinterleave 3 2 [0, 1, 2, 3, 4, 5] = [[0, 3], [1, 4]] := by
  constructor
  · decide
  · decide

/-- C1 (amended): for every input buffer whose current channel count is
greater than 1 and every target channel count, the de-interleave step
splits the interleaved sample sequence into targetChannelCount separate
streams using the SOURCE channel count as the stride (stream `i` consists
of the samples at positions `i, i + srcCh, i + 2*srcCh, ...`), silently
dropping samples when the target channel count is smaller than the source
channel count (the sample at position `tgtCh` is read by no stream). -/
theorem c1_theorem [Inhabited α] (xs : List α) (srcCh tgtCh : Nat)
    (hsrc : 1 < srcCh) :
    (deinterleave srcCh tgtCh xs).length = tgtCh ∧
    (∀ i, i < tgtCh → ∀ k, ((deinterleave srcCh tgtCh xs).getD i []).getD k default
        = xs.getD (i + k * srcCh) default) ∧
    (tgtCh < srcCh → ∀ i k, i < tgtCh → i + k * srcCh ≠ tgtCh) := by
  refine ⟨by simp [deinterleave], ?_, ?_⟩
  · intro i hi k
    rw [getD_deinterleave _ _ _ i hi, getD_strided _ _ _ (by omega) k]
  · intro hlt i k hi
    rcases Nat.eq_zero_or_pos k with rfl | hk
    · omega
    · have hmul : srcCh ≤ k * srcCh := Nat.le_mul_of_pos_left srcCh hk
      omega

/-- Witness for C1 at a concrete buffer (source 3 channels, target 2). -/
theorem c1_witness :
    (1 : Nat) < 3 ∧
    (deinterleave 3 2 [10, 11, 12, 13, 14, 15]).length = 2 ∧
    ((deinterleave 3 2 [10, 11, 12, 13, 14, 15]).getD 1 []).getD 1 default
      = [10, 11, 12, 13, 14, 15].getD (1 + 1 * 3) default ∧
    1 + 1 * 3 ≠ 2 :=
  ⟨by norm_num,
   (c1_theorem [10, 11, 12, 13, 14, 15] 3 2 (by norm_num)).1,
   (c1_theorem [10, 11, 12, 13, 14, 15] 3 2 (by norm_num)).2.1 1 (by norm_num) 1,
   (c1_theorem [10, 11, 12, 13, 14, 15] 3 2 (by norm_num)).2.2 (by norm_num) 1 1
     (by norm_num)⟩

/-- Identical source/target format and rate on a mono record is a no-op
on the payload (helper for C5). -/
theorem sync_identity_mono (env : AudioEnv) (rec : Rec) (p : List Nat)
    (r fmt w : Nat) (hpo : rec.o = RecPayload.bytes p) (hn : rec.nchannels = 1)
    (hr : rec.frameRate = r) (hf : rec.sampleFormat = some fmt)
    (hw : env.getSampleSize fmt = some w) (hw0 : 0 < w) (hdvd : w ∣ p.length)
    (hden : r * 1 * w ≠ 0) :
    synchronize_audio env rec 1 r fmt = Except.ok
      { o := RecPayload.bytes p, size := p.length, frameRate := r, nchannels := 1,
        sampleFormat := some fmt,
        duration := (p.length : ℚ) / ((r * 1 * w : Nat) : ℚ) } := by
  have hmod : p.length % w = 0 := Nat.mod_eq_zero_of_dvd hdvd
  have hflat : (chunk w p).flatten = p := flatten_chunk w hw0 p hdvd
  have hcond : ¬ (w = 0 ∨ p.length % w ≠ 0) := by omega
  unfold synchronize_audio
  simp only [hf, hw, hpo, hn, hr]
  rw [if_neg hcond]
  simp [hflat, hden]
  exact ⟨by rintro rfl; simp at hden, by rintro rfl; simp at hden⟩

/-- Identical source/target format and rate on a stereo record is a no-op
on the payload (helper for C5). -/
theorem sync_identity_stereo (env : AudioEnv) (rec : Rec) (p : List Nat)
    (r fmt w : Nat) (hpo : rec.o = RecPayload.bytes p) (hn : rec.nchannels = 2)
    (hr : rec.frameRate = r) (hf : rec.sampleFormat = some fmt)
    (hw : env.getSampleSize fmt = some w) (hw0 : 0 < w) (hdvd : w ∣ p.length)
    (heven : (p.length / w) % 2 = 0) (hden : r * 2 * w ≠ 0) :
    synchronize_audio env rec 2 r fmt = Except.ok
      { o := RecPayload.bytes p, size := p.length, frameRate := r, nchannels := 2,
        sampleFormat := some fmt,
        duration := (p.length : ℚ) / ((r * 2 * w : Nat) : ℚ) } := by
  have hmod : p.length % w = 0 := Nat.mod_eq_zero_of_dvd hdvd
  have hlen : (chunk w p).length = p.length / w := length_chunk w hw0 p hdvd
  have hdata2 : (chunk w p).length % 2 = 0 := by rw [hlen]; exact heven
  have hdi : deinterleave 2 2 (chunk w p)
      = [strided 0 2 (chunk w p), strided 1 2 (chunk w p)] := by
    unfold deinterleave
    rw [show List.range 2 = [0, 1] by decide]
    rfl
  have hlens : (strided 0 2 (chunk w p)).length = (strided 1 2 (chunk w p)).length := by
    rw [length_strided, length_strided, sliceCount_even_zero _ hdata2,
      sliceCount_even_one _ hdata2]
  have happ : npAppendRows (deinterleave 2 2 (chunk w p))
      = Except.ok [strided 0 2 (chunk w p), strided 1 2 (chunk w p)] := by
    rw [hdi]
    show (if (strided 0 2 (chunk w p)).length = (strided 1 2 (chunk w p)).length
        then Except.ok [strided 0 2 (chunk w p), strided 1 2 (chunk w p)]
        else Except.error SyncErr.shapeMismatch)
      = Except.ok [strided 0 2 (chunk w p), strided 1 2 (chunk w p)]
    rw [if_pos hlens]
  have hshuf : shuffle2d_channels [strided 0 2 (chunk w p), strided 1 2 (chunk w p)]
      = chunk w p := shuffle_two_strided _ hdata2
  have hflat : (chunk w p).flatten = p := flatten_chunk w hw0 p hdvd
  have hcond : ¬ (w = 0 ∨ p.length % w ≠ 0) := by omega
  unfold synchronize_audio
  simp only [hf, hw, hpo, hn, hr]
  rw [if_neg hcond]
  simp [happ, hshuf, hflat, hden]

/-- C5 counterexample: with source format equal to target format but three
channels, `synchronize_audio` does not return the payload unchanged — it
raises, because the channel-adjustment step passes three positional array
arguments to `np.append` (which accepts exactly two).  The claim quantifies
over every format `F`, so `F = (3 channels, 8000 Hz, tag 1)` with the
6-byte payload below refutes it. -/
theorem c5_counterexample :
    synchronize_audio testEnv
      { o := RecPayload.bytes [0, 1, 2, 3, 4, 5], size := 6, frameRate := 8000,
        nchannels := 3, sampleFormat := some 1, duration := 0 }
      3 8000 1 = Except.error SyncErr.appendArity := by
  rfl

/-- C5 (amended): for every payload `p` well-formed for format `F`
(byte length divisible by the sample width, and for two channels an even
sample count) and every format `F` whose channel count is 1 or 2, calling
`synchronize_audio` with source format equal to target format `F` returns
the record with payload bytes equal to `p` and format fields equal to `F`.
For channel counts other than 1 and 2 the de-interleave/stack step raises
(`np.append` arity), so the no-op property cannot hold there. -/
theorem c5_theorem (env : AudioEnv) (rec : Rec) (p : List Nat) (n r fmt w : Nat)
    (hpo : rec.o = RecPayload.bytes p) (hn : rec.nchannels = n)
    (hr : rec.frameRate = r) (hf : rec.sampleFormat = some fmt)
    (hw : env.getSampleSize fmt = some w) (hw0 : 0 < w) (hdvd : w ∣ p.length)
    (hch : n = 1 ∨ n = 2) (heven : n = 2 → (p.length / w) % 2 = 0)
    (hden : r * n * w ≠ 0) :
    ∃ rec', synchronize_audio env rec n r fmt = Except.ok rec' ∧
      rec'.o = RecPayload.bytes p ∧ rec'.nchannels = n ∧ rec'.frameRate = r ∧
      rec'.sampleFormat = some fmt := by
  rcases hch with rfl | rfl
  · exact ⟨_, sync_identity_mono env rec p r fmt w hpo hn hr hf hw hw0 hdvd hden,
      rfl, rfl, rfl, rfl⟩
  · exact ⟨_, sync_identity_stereo env rec p r fmt w hpo hn hr hf hw hw0 hdvd
      (heven rfl) hden, rfl, rfl, rfl, rfl⟩

/-- Witness for C5 on a concrete stereo record (format tag 1, two bytes
per sample, four samples). -/
theorem c5_witness :
    ∃ rec', synchronize_audio testEnv
        { o := RecPayload.bytes [1, 2, 3, 4, 5, 6, 7, 8], size := 8,
          frameRate := 8000, nchannels := 2, sampleFormat := some 1, duration := 0 }
        2 8000 1 = Except.ok rec' ∧
      rec'.o = RecPayload.bytes [1, 2, 3, 4, 5, 6, 7, 8] ∧ rec'.nchannels = 2 ∧
      rec'.frameRate = 8000 ∧ rec'.sampleFormat = some 1 :=
  c5_theorem testEnv _ [1, 2, 3, 4, 5, 6, 7, 8] 2 8000 1 2 rfl rfl rfl rfl
    (by decide) (by decide) (by decide) (Or.inr rfl) (fun _ => by decide)
    (by decide)

/-- C7: synchronizing a mono `N`-sample buffer to `k > 1` channels at the
source's own rate and format produces an interleaved `k`-channel buffer in
which every channel stream (stride-`k` slice `i` of the sample words)
equals the original mono stream sample for sample, the values untouched. -/
theorem c7_theorem (env : AudioEnv) (rec : Rec) (p : List Nat) (k r fmt w : Nat)
    (hpo : rec.o = RecPayload.bytes p) (hn : rec.nchannels = 1)
    (hr : rec.frameRate = r) (hf : rec.sampleFormat = some fmt)
    (hw : env.getSampleSize fmt = some w) (hw0 : 0 < w) (hdvd : w ∣ p.length)
    (hk : 1 < k) (hden : r * k * w ≠ 0) :
    ∃ rec' b, synchronize_audio env rec k r fmt = Except.ok rec' ∧
      rec'.o = RecPayload.bytes b ∧ rec'.nchannels = k ∧ rec'.frameRate = r ∧
      rec'.sampleFormat = some fmt ∧ b.length = k * p.length ∧
      ∀ i, i < k → strided i k (chunk w b) = chunk w p := by
  have hmod : p.length % w = 0 := Nat.mod_eq_zero_of_dvd hdvd
  have hcond : ¬ (w = 0 ∨ p.length % w ≠ 0) := by omega
  have hkpos : 0 < k := by omega
  have hallS : ∀ l ∈ shuffle2d_channels (List.replicate k (chunk w p)), l.length = w := by
    intro l hl
    rw [shuffle_replicate k hkpos (chunk w p)] at hl
    obtain ⟨m, hm, rfl⟩ := List.mem_map.1 hl
    have hmlt : m < k * (chunk w p).length := List.mem_range.1 hm
    have hdlt : m / k < (chunk w p).length := by
      rw [Nat.div_lt_iff_lt_mul hkpos]
      have hcomm : (chunk w p).length * k = k * (chunk w p).length := Nat.mul_comm _ _
      omega
    exact mem_chunk_length w hw0 p hdvd _ (getD_mem_of_lt _ _ hdlt)
  have hchunkb : chunk w (shuffle2d_channels (List.replicate k (chunk w p))).flatten
      = shuffle2d_channels (List.replicate k (chunk w p)) :=
    chunk_flatten w hw0 _ hallS
  have hmain : synchronize_audio env rec k r fmt = Except.ok
      { o := RecPayload.bytes (shuffle2d_channels (List.replicate k (chunk w p))).flatten,
        size := (shuffle2d_channels (List.replicate k (chunk w p))).flatten.length,
        frameRate := r, nchannels := k, sampleFormat := some fmt,
        duration := ((shuffle2d_channels (List.replicate k (chunk w p))).flatten.length : ℚ)
          / ((r * k * w : Nat) : ℚ) } := by
    unfold synchronize_audio
    simp only [hf, hw, hpo, hn, hr]
    rw [if_neg hcond]
    simp [hk, hden]
  have hSlen : (shuffle2d_channels (List.replicate k (chunk w p))).length
      = k * (chunk w p).length := by
    rw [shuffle_replicate k hkpos]
    simp
  have hblen : (shuffle2d_channels (List.replicate k (chunk w p))).flatten.length
      = k * p.length := by
    rw [List.length_flatten, sum_map_length_const _ w hallS, hSlen,
      length_chunk w hw0 p hdvd]
    have hcan : p.length / w * w = p.length := Nat.div_mul_cancel hdvd
    calc k * (p.length / w) * w = k * (p.length / w * w) := by ring
      _ = k * p.length := by rw [hcan]
  refine ⟨_, (shuffle2d_channels (List.replicate k (chunk w p))).flatten, hmain,
    rfl, rfl, rfl, rfl, hblen, ?_⟩
  intro i hik
  rw [hchunkb]
  exact strided_shuffle_replicate k i hik (chunk w p)

/-- Witness for C7: a mono two-sample buffer (format tag 1, two bytes per
sample) upmixed to three channels at its own rate. -/
theorem c7_witness :
    ∃ rec' b, synchronize_audio testEnv
        { o := RecPayload.bytes [5, 6, 7, 8], size := 4, frameRate := 100,
          nchannels := 1, sampleFormat := some 1, duration := 0 }
        3 100 1 = Except.ok rec' ∧
      rec'.o = RecPayload.bytes b ∧ rec'.nchannels = 3 ∧ rec'.frameRate = 100 ∧
      rec'.sampleFormat = some 1 ∧ b.length = 3 * 4 ∧
      ∀ i, i < 3 → strided i 3 (chunk 2 b) = chunk 2 [5, 6, 7, 8] :=
  c7_theorem testEnv _ [5, 6, 7, 8] 3 100 1 2 rfl rfl rfl rfl (by decide)
    (by decide) (by decide) (by decide) (by decide)

/-- C6 counterexample: when BOTH an open handle and a file name are
supplied, the write-target selection of `write_to_cached_file` (lines
48-53) does not fail: the `if buffered_random:` branch runs first and the
handle silently takes precedence, so no `ValueError` is raised. -/
theorem c6_counterexample :
    select_write_target (some ()) (some "x.cache")
      = some WriteTarget.existingHandle := by
  rfl

/-- C6 (amended): `write_to_cached_file` fails with the configuration
error exactly when no truthy write target is supplied — neither an open
handle nor a non-empty file name; when both are supplied it does not
fail, the open handle taking precedence over the file name. -/
theorem c6_theorem (br : Option Unit) (fn : Option String) :
    (select_write_target br fn = none ↔
      (br = none ∧ (fn = none ∨ fn = some ""))) ∧
    (br.isSome → select_write_target br fn = some WriteTarget.existingHandle) := by
  constructor
  · constructor
    · intro h
      cases br with
      | some u => simp [select_write_target] at h
      | none =>
        cases fn with
        | none => exact ⟨rfl, Or.inl rfl⟩
        | some s =>
          by_cases hs : s = ""
          · exact ⟨rfl, Or.inr (by rw [hs])⟩
          · have hval : select_write_target none (some s)
                = some (WriteTarget.openPath s) := by
              unfold select_write_target
              simp [hs]
            rw [hval] at h
            exact absurd h (by simp)
    · rintro ⟨rfl, hfn⟩
      rcases hfn with rfl | rfl <;> rfl
  · intro hbr
    cases br with
    | none => simp at hbr
    | some u => rfl

/-- Witness for C6: neither target supplied fails; both supplied
proceeds with the handle. -/
theorem c6_witness :
    select_write_target none none = none ∧
    select_write_target (some ()) (some "y.cache")
      = some WriteTarget.existingHandle :=
  ⟨(c6_theorem none none).1.2 ⟨rfl, Or.inl rfl⟩,
   (c6_theorem (some ()) (some "y.cache")).2 rfl⟩

/-- C10: a stored sampleFormatId of 0 is never exposed to the caller as
`some 0` — `handle_cached_record` line 154 (`exposeFormat`) maps it to
`None` — every nonzero tag is exposed unchanged, and on both write call
sites (lines 176 and 200, `storeFormat`) an unspecified format is
serialized back as 0, so the on-disk encoding round-trips through the
mapping: `storeFormat (exposeFormat c) = c` for every stored tag `c`. -/
theorem c10_theorem :
    (∀ c, exposeFormat c ≠ some 0) ∧ exposeFormat 0 = none ∧
    storeFormat none = 0 ∧ (∀ c, storeFormat (exposeFormat c) = c) ∧
    (∀ c, c ≠ 0 → exposeFormat c = some c) := by
  refine ⟨?_, rfl, rfl, ?_, ?_⟩
  · intro c
    by_cases hc : c = 0 <;> simp [exposeFormat, hc]
  · intro c
    by_cases hc : c = 0 <;> simp [exposeFormat, storeFormat, hc]
  · intro c hc
    simp [exposeFormat, hc]

/-- Witness for C10 at the tags 0 and 3. -/
theorem c10_witness :
    exposeFormat 0 ≠ some 0 ∧ storeFormat (exposeFormat 0) = 0 ∧
    (3 : Nat) ≠ 0 ∧ exposeFormat 3 = some 3 :=
  ⟨c10_theorem.1 0, c10_theorem.2.2.2.1 0, by decide, c10_theorem.2.2.2.2 3 (by decide)⟩

/-- Full characterization of a successful exit of the contention retry
loop (shared helper for C8 and C9): the adopted candidate did not exist,
the original entry was readable and not open-busy, and the new
filesystem is the old one plus a copy of the original entry at the
adopted path. -/
theorem resolve_conflict_spec (fuel : Nat) (serve : Nat → String) (k : Nat)
    (fs : FS) (renameBusy openBusy : String → Bool) (orig np' : String) (fs' : FS)
    (hres : resolve_conflict fuel serve k fs renameBusy openBusy orig
      = some (np', fs')) :
    fsLookup fs np' = none ∧
    ∃ ob, fsLookup fs orig = some ob ∧ openBusy orig = false ∧
      fs' = fsInsert fs np' ob := by
  induction fuel generalizing k with
  | zero => exact absurd hres (by simp [resolve_conflict])
  | succ fuel ih =>
    simp only [resolve_conflict] at hres
    cases hl : fsLookup fs (serve k) with
    | some c =>
      rw [hl, ite_self] at hres
      exact ih (k + 1) hres
    | none =>
      rw [hl] at hres
      cases ho : fsLookup fs orig with
      | some ob =>
        cases hb : openBusy orig with
        | false =>
          rw [ho, hb] at hres
          have hres' : some (serve k, fsInsert fs (serve k) ob)
              = some (np', fs') := hres
          simp only [Option.some.injEq, Prod.mk.injEq] at hres'
          obtain ⟨h1, h2⟩ := hres'
          subst h1
          subst h2
          exact ⟨hl, ob, rfl, rfl, rfl⟩
        | true =>
          rw [ho, hb] at hres
          obtain ⟨-, ob', -, hC, -⟩ := ih (k + 1) hres
          rw [hb] at hC
          exact absurd hC (by decide)
      | none =>
        cases hb : openBusy orig <;> rw [ho, hb] at hres
        all_goals
          obtain ⟨-, ob', hB, -, -⟩ := ih (k + 1) hres
        all_goals
          rw [ho] at hB
        all_goals
          exact Option.noConfusion hB

theorem fsLookup_fsInsert_self (fs : FS) (p : String) (bs : List Nat) :
    fsLookup (fsInsert fs p bs) p = some bs := by
  unfold fsInsert fsLookup
  rw [if_pos rfl]

/-- C9: the contention retry loop in `handle_cached_record` never
terminates by adopting an already-existing candidate path: even when an
existing candidate passes the self-rename probe and opens successfully
the loop requests a further candidate (that branch has no break), and
every successful exit adopts a candidate that did not yet exist, into
which the original entry's bytes are copied. -/
theorem c9_theorem (fuel : Nat) (serve : Nat → String) (k : Nat) (fs : FS)
    (renameBusy openBusy : String → Bool) (orig np' : String) (fs' : FS)
    (hres : resolve_conflict fuel serve k fs renameBusy openBusy orig
      = some (np', fs')) :
    fsLookup fs np' = none ∧
    ∃ ob, fsLookup fs orig = some ob ∧ fs' = fsInsert fs np' ob := by
  obtain ⟨h1, ob, h2, -, h4⟩ :=
    resolve_conflict_spec fuel serve k fs renameBusy openBusy orig np' fs' hres
  exact ⟨h1, ob, h2, h4⟩

/-- Witness for C9: candidate "b" exists and passes the probe, yet the
loop moves on and exits at the fresh candidate "c". -/
theorem c9_witness :
    fsLookup fsW "c" = none ∧
    ∃ ob, fsLookup fsW "a" = some ob ∧
      fsInsert fsW "c" [1, 2, 3] = fsInsert fsW "c" ob :=
  c9_theorem 3 serveW 1 fsW busyA busyNone "a" "c" (fsInsert fsW "c" [1, 2, 3])
    (by rfl)

/-- C8: whenever the self-rename probe reports the candidate cache path
busy and the retry loop of `handle_cached_record` succeeds, the resolved
path differs from the original candidate and the file at the new path is
a byte-for-byte copy of the original entry's bytes (header and payload),
provided the original entry was readable. -/
theorem c8_theorem (fuel : Nat) (serve : Nat → String) (k : Nat) (fs : FS)
    (renameBusy openBusy : String → Bool) (orig np' : String) (fs' : FS)
    (ob : List Nat) (horig : fsLookup fs orig = some ob)
    (hres : resolve_conflict fuel serve k fs renameBusy openBusy orig
      = some (np', fs')) :
    np' ≠ orig ∧ fsLookup fs' np' = some ob := by
  obtain ⟨h1, ob', h2, -, h4⟩ :=
    resolve_conflict_spec fuel serve k fs renameBusy openBusy orig np' fs' hres
  have hob : ob' = ob := by
    rw [horig] at h2
    exact (Option.some.inj h2).symm
  subst hob
  constructor
  · intro hEq
    rw [hEq, horig] at h1
    exact Option.noConfusion h1
  · rw [h4]
    exact fsLookup_fsInsert_self fs np' ob'

/-- Witness for C8: the probe on "a" fails (rename-busy), the loop
resolves to the fresh path "c", and "c" holds the bytes of "a". -/
theorem c8_witness :
    "c" ≠ "a" ∧ fsLookup (fsInsert fsW "c" [1, 2, 3]) "c" = some [1, 2, 3] :=
  c8_theorem 3 serveW 1 fsW busyA busyNone "a" "c" (fsInsert fsW "c" [1, 2, 3])
    [1, 2, 3] (by rfl) (by rfl)

theorem list_len_four (l : List α) (h : l.length = 4) :
    ∃ a b c d, l = [a, b, c, d] := by
  rcases l with _ | ⟨a, l⟩
  · simp at h
  rcases l with _ | ⟨b, l⟩
  · simp at h
  rcases l with _ | ⟨c, l⟩
  · simp at h
  rcases l with _ | ⟨d, l⟩
  · simp at h
  rcases l with _ | ⟨e, l⟩
  · exact ⟨a, b, c, d, rfl⟩
  · simp at h

/-- Header decode fails exactly when the byte count does not divide
evenly into the fixed field count times the field width (4 fields of 8
bytes). -/
theorem decodeHeader_eq_none_iff (bs : List Nat) :
    decodeHeader bs = none ↔ bs.length ≠ 8 * 4 := by
  constructor
  · intro h hlen
    have h32 : bs.length = 32 := by omega
    have hdvd : (8 : Nat) ∣ bs.length := by omega
    have hc4 : ((chunk 8 bs).map leBytesToNat).length = 4 := by
      rw [List.length_map, length_chunk 8 (by omega) bs hdvd, h32]
    obtain ⟨x1, x2, x3, x4, hl⟩ := list_len_four _ hc4
    unfold decodeHeader at h
    rw [if_pos (by omega), hl] at h
    exact Option.noConfusion h
  · intro hne
    unfold decodeHeader
    by_cases hmod : bs.length % 8 = 0
    · rw [if_pos hmod]
      have hdvd : (8 : Nat) ∣ bs.length := by omega
      have hlen4 : ((chunk 8 bs).map leBytesToNat).length = bs.length / 8 := by
        rw [List.length_map, length_chunk 8 (by omega) bs hdvd]
      rcases h0 : (chunk 8 bs).map leBytesToNat with
        _ | ⟨x1, _ | ⟨x2, _ | ⟨x3, _ | ⟨x4, _ | ⟨x5, t⟩⟩⟩⟩⟩
      · rfl
      · rfl
      · rfl
      · rfl
      · rw [h0] at hlen4
        simp at hlen4
        omega
      · rfl
    · rw [if_neg hmod]

/-- The writer, called as both `handle_cached_record` call sites call it
(four head values, in-memory data, seek to 0, truncate, then seek to the
header width): the resulting file is header bytes followed by the data,
positioned at `ci`. -/
theorem write_to_cached_file_head4 (sz fr sf nch : Nat) (d : List Nat) (f0 : CFile)
    (ci : Nat) (h1 : sz < 2 ^ 64) (h2 : fr < 2 ^ 64) (h3 : sf < 2 ^ 64)
    (h4 : nch < 2 ^ 64) :
    write_to_cached_file [sz, fr, sf, nch] (some d) f0 (some (0, 0)) true
        (some (ci, 0))
      = some (⟨encodeHead [sz, fr, sf, nch] ++ d, ci⟩, 32 + d.length) := by
  have hlen : (encodeHead [sz, fr, sf, nch]).length = 32 := by
    simp [encodeHead, length_natToLEBytes]
  have hdrop : (encodeHead [sz, fr, sf, nch]).drop
      ((encodeHead [sz, fr, sf, nch]).length + d.length) = [] := by
    apply List.drop_eq_nil_of_le
    omega
  have htake : (encodeHead [sz, fr, sf, nch]).take 32 = encodeHead [sz, fr, sf, nch] := by
    rw [← hlen]
    exact List.take_length _
  have hdrop2 : (encodeHead [sz, fr, sf, nch]).drop (32 + d.length) = [] :=
    List.drop_eq_nil_of_le (by omega)
  unfold write_to_cached_file
  rw [if_neg (by
    simp only [List.all_cons, List.all_nil, Bool.and_eq_true, decide_eq_true_eq,
      Bool.and_true, not_not]
    refine ⟨by omega, by omega, by omega, ?_⟩
    omega)]
  simp only [fileSeek, fileWrite]
  simp [hlen, htake, hdrop2]

/-- The miss/rebuild handler on a decoder that returns in-memory bytes:
size is payload length PLUS the header width, and the file at `path`
becomes header bytes followed by the payload. -/
theorem cache_miss_rebuild_bytes (record : Rec) (path : String) (ci : Nat)
    (d : List Nat) (fs : FS) (removed : List String)
    (h1 : d.length + ci < 2 ^ 64) (h2 : record.frameRate < 2 ^ 64)
    (h3 : storeFormat record.sampleFormat < 2 ^ 64) (h4 : record.nchannels < 2 ^ 64) :
    cache_miss_rebuild record path ci (some d) fs removed
      = Except.ok
          ({ record with o := RecPayload.handle path ci, size := d.length + ci },
           fsInsert fs path (encodeHead [d.length + ci, record.frameRate,
             storeFormat record.sampleFormat, record.nchannels] ++ d),
           removed) := by
  unfold cache_miss_rebuild
  dsimp only
  rw [write_to_cached_file_head4 _ _ _ _ _ _ _ h1 h2 h3 h4]

theorem finish_record_eq (env : AudioEnv) (rec : Rec) (w : Nat)
    (hw : rec.sampleFormat.bind env.getSampleSize = some w)
    (hden : rec.frameRate * rec.nchannels * w ≠ 0) :
    finish_record env rec = Except.ok
      { rec with duration := (rec.size : ℚ)
          / ((rec.frameRate * rec.nchannels * w : Nat) : ℚ) } := by
  unfold finish_record
  rw [hw]
  simp [hden]

/-- C3: for a cache entry whose first `CACHE_INFO` bytes do not decode
as a valid header, `handle_cached_record` closes and deletes that file
(the removal log is exactly the resolved path), obtains a fresh payload
from the decoder collaborator, writes a fresh header plus payload to the
resolved path with prior content truncated, and returns normally without
raising the decode failure; and the decode failure occurs exactly when
the byte count read does not divide evenly into the fixed field count
times the field width (4 fields of 8 bytes). -/
theorem c3_theorem (fuel : Nat) (env : AudioEnv) (a : HandleArgs) (fs : FS)
    (renameBusy openBusy : String → Bool) (content d : List Nat) (w : Nat)
    (hmem : a.serve 0 ∈ a.master.cache)
    (hrb : renameBusy (a.serve 0) = false) (hob : openBusy (a.serve 0) = false)
    (hfs : fsLookup fs (a.serve 0) = some content)
    (hdec : decodeHeader (content.take a.master.CACHE_INFO) = none)
    (hdecoder : a.decoder = some d)
    (h1 : d.length + a.master.CACHE_INFO < 2 ^ 64)
    (h2 : a.record.frameRate < 2 ^ 64)
    (h3 : storeFormat a.record.sampleFormat < 2 ^ 64)
    (h4 : a.record.nchannels < 2 ^ 64)
    (hw : a.record.sampleFormat.bind env.getSampleSize = some w)
    (hden : a.record.frameRate * a.record.nchannels * w ≠ 0) :
    ∃ r2, handle_cached_record fuel env a fs renameBusy openBusy
        = Except.ok (r2,
            fsInsert (fsErase fs (a.serve 0)) (a.serve 0)
              (encodeHead [d.length + a.master.CACHE_INFO, a.record.frameRate,
                storeFormat a.record.sampleFormat, a.record.nchannels] ++ d),
            [a.serve 0]) ∧
      r2.size = d.length + a.master.CACHE_INFO ∧
      (∀ bs : List Nat, decodeHeader bs = none ↔ bs.length ≠ 8 * 4) := by
  unfold handle_cached_record
  dsimp only
  rw [if_pos hmem, if_neg (by simp [hrb, hob, hfs])]
  dsimp only
  rw [hfs]
  dsimp only
  rw [hdec]
  dsimp only
  rw [hdecoder]
  rw [cache_miss_rebuild_bytes
    { o := RecPayload.handle (a.serve 0) (min a.master.CACHE_INFO content.length),
      size := a.record.size, frameRate := a.record.frameRate,
      nchannels := a.record.nchannels, sampleFormat := a.record.sampleFormat,
      duration := a.record.duration }
    (a.serve 0) a.master.CACHE_INFO d (fsErase fs (a.serve 0)) [a.serve 0]
    h1 h2 h3 h4]
  dsimp only
  rw [finish_record_eq env
    { o := RecPayload.handle (a.serve 0) a.master.CACHE_INFO,
      size := d.length + a.master.CACHE_INFO, frameRate := a.record.frameRate,
      nchannels := a.record.nchannels, sampleFormat := a.record.sampleFormat,
      duration := a.record.duration } w hw hden]
  exact ⟨_, rfl, rfl, decodeHeader_eq_none_iff⟩

/-- Witness for C3: a 3-byte cache file at "p" (undecodable header) is
removed and rebuilt from the decoder's 4-byte payload; the new file is a
fresh 32-byte header followed by the payload and the call returns
normally. -/
theorem c3_witness :
    ∃ r2, handle_cached_record 1 testEnv argsC3 fsC3 busyNone busyNone
        = Except.ok (r2,
            fsInsert (fsErase fsC3 "p") "p"
              (encodeHead [36, 8000, 1, 1] ++ [9, 9, 9, 9]),
            ["p"]) ∧
      r2.size = 36 ∧
      (∀ bs : List Nat, decodeHeader bs = none ↔ bs.length ≠ 8 * 4) :=
  c3_theorem 1 testEnv argsC3 fsC3 busyNone busyNone [1, 2, 3] [9, 9, 9, 9] 2
    (by decide) rfl rfl rfl (by decide) rfl (by decide) (by decide) (by decide)
    (by decide) rfl (by decide)

/-- Every successful run of the synchronizer sets `size` to the byte
length of the payload it produces (sync.py line 96, after the tobytes
serialization). -/
theorem synchronize_size_eq (env : AudioEnv) (rec : Rec) (n r f : Nat)
    (rec' : Rec) (h : synchronize_audio env rec n r f = Except.ok rec') :
    ∃ b, rec'.o = RecPayload.bytes b ∧ rec'.size = b.length := by
  unfold synchronize_audio at h
  repeat'
    first
      | split at h
      | dsimp only at h
  any_goals exact absurd h (fun hh => Except.noConfusion hh)
  all_goals
    obtain rfl := Except.ok.inj h
  all_goals
    exact ⟨_, rfl, rfl⟩

/-- C2 (amended): the size field and the byteSize value written as the
first header field equal the payload length in bytes excluding the
header on the safe-resynchronization path (conjuncts 1 and 2), and on
the reuse path the size field equals the stored header's byteSize
(conjunct 3); but on the miss/rebuild path both the size field and the
written byteSize equal the payload length in bytes PLUS the header
width `CACHE_INFO`, not the payload length alone (conjunct 4). -/
theorem c2_theorem :
    (∀ (env : AudioEnv) (rec : Rec) (n r f : Nat) (rec' : Rec),
      synchronize_audio env rec n r f = Except.ok rec' →
      ∃ b, rec'.o = RecPayload.bytes b ∧ rec'.size = b.length) ∧
    (∀ (fuel : Nat) (env : AudioEnv) (a : HandleArgs) (fs : FS)
        (renameBusy openBusy : String → Bool) (content b : List Nat)
        (hd : CacheHeader) (rec2 : Rec) (w2 : Nat),
      a.serve 0 ∈ a.master.cache → renameBusy (a.serve 0) = false →
      openBusy (a.serve 0) = false → fsLookup fs (a.serve 0) = some content →
      decodeHeader (content.take a.master.CACHE_INFO) = some hd →
      ¬ (hd.channelCount = a.sync_nchannels.getD a.master.nchannels ∧
         exposeFormat hd.sampleFormatId
           = some (a.sync_sample_format_id.getD a.master.sample_format) ∧
         hd.frameRate = a.sync_sample_rate.getD a.master.sample_rate) →
      a.safe_load = true →
      synchronize_audio env
        { o := RecPayload.bytes (content.drop (min a.master.CACHE_INFO content.length)),
          size := hd.byteSize, frameRate := hd.frameRate,
          nchannels := hd.channelCount,
          sampleFormat := exposeFormat hd.sampleFormatId,
          duration := a.record.duration }
        (a.sync_nchannels.getD a.master.nchannels)
        (a.sync_sample_rate.getD a.master.sample_rate)
        (a.sync_sample_format_id.getD a.master.sample_format) = Except.ok rec2 →
      rec2.o = RecPayload.bytes b →
      rec2.size < 2 ^ 64 → rec2.frameRate < 2 ^ 64 →
      storeFormat rec2.sampleFormat < 2 ^ 64 → rec2.nchannels < 2 ^ 64 →
      rec2.sampleFormat.bind env.getSampleSize = some w2 →
      rec2.frameRate * rec2.nchannels * w2 ≠ 0 →
      ∃ r2, handle_cached_record fuel env a fs renameBusy openBusy
          = Except.ok (r2,
              fsInsert fs (a.serve 0)
                (encodeHead [rec2.size, rec2.frameRate,
                  storeFormat rec2.sampleFormat, rec2.nchannels] ++ b),
              []) ∧
        r2.size = b.length) ∧
    (∀ (fuel : Nat) (env : AudioEnv) (a : HandleArgs) (fs : FS)
        (renameBusy openBusy : String → Bool) (content : List Nat)
        (hd : CacheHeader) (w : Nat),
      a.serve 0 ∈ a.master.cache → renameBusy (a.serve 0) = false →
      openBusy (a.serve 0) = false → fsLookup fs (a.serve 0) = some content →
      decodeHeader (content.take a.master.CACHE_INFO) = some hd →
      hd.channelCount = a.sync_nchannels.getD a.master.nchannels →
      exposeFormat hd.sampleFormatId
        = some (a.sync_sample_format_id.getD a.master.sample_format) →
      hd.frameRate = a.sync_sample_rate.getD a.master.sample_rate →
      (exposeFormat hd.sampleFormatId).bind env.getSampleSize = some w →
      hd.frameRate * hd.channelCount * w ≠ 0 →
      ∃ r2, handle_cached_record fuel env a fs renameBusy openBusy
          = Except.ok (r2, fs, []) ∧ r2.size = hd.byteSize) ∧
    (∀ (fuel : Nat) (env : AudioEnv) (a : HandleArgs) (fs : FS)
        (renameBusy openBusy : String → Bool) (d : List Nat) (w : Nat),
      a.serve 0 ∉ a.master.cache → a.decoder = some d →
      d.length + a.master.CACHE_INFO < 2 ^ 64 → a.record.frameRate < 2 ^ 64 →
      storeFormat a.record.sampleFormat < 2 ^ 64 → a.record.nchannels < 2 ^ 64 →
      a.record.sampleFormat.bind env.getSampleSize = some w →
      a.record.frameRate * a.record.nchannels * w ≠ 0 →
      ∃ r2, handle_cached_record fuel env a fs renameBusy openBusy
          = Except.ok (r2,
              fsInsert fs (a.serve 0)
                (encodeHead [d.length + a.master.CACHE_INFO, a.record.frameRate,
                  storeFormat a.record.sampleFormat, a.record.nchannels] ++ d),
              []) ∧
        r2.size = d.length + a.master.CACHE_INFO) := by
  refine ⟨synchronize_size_eq, ?_, ?_, ?_⟩
  · intro fuel env a fs renameBusy openBusy content b hd rec2 w2 hmem hrb hob hfs
      hdec hne hsafe hsync hb hs1 hs2 hs3 hs4 hw2 hden2
    obtain ⟨b', hb', hsz⟩ := synchronize_size_eq _ _ _ _ _ _ hsync
    have hbb : b' = b := by
      rw [hb] at hb'
      exact (RecPayload.bytes.inj hb').symm
    rw [hbb] at hb' hsz
    unfold handle_cached_record
    dsimp only
    rw [if_pos hmem, if_neg (by simp [hrb, hob, hfs])]
    dsimp only
    rw [hfs]
    dsimp only
    rw [hdec]
    dsimp only
    rw [if_neg hne, if_pos hsafe]
    rw [hsync]
    dsimp only
    rw [hb']
    dsimp only
    rw [write_to_cached_file_head4 rec2.size rec2.frameRate
      (storeFormat rec2.sampleFormat) rec2.nchannels b
      ⟨content, content.length⟩ a.master.CACHE_INFO hs1 hs2 hs3 hs4]
    dsimp only
    rw [finish_record_eq env
      { o := RecPayload.handle (a.serve 0) a.master.CACHE_INFO,
        size := rec2.size, frameRate := rec2.frameRate,
        nchannels := rec2.nchannels, sampleFormat := rec2.sampleFormat,
        duration := rec2.duration } w2 hw2 hden2]
    exact ⟨_, rfl, hsz⟩
  · intro fuel env a fs renameBusy openBusy content hd w hmem hrb hob hfs hdec
      hcn hcf hcr hw hden
    unfold handle_cached_record
    dsimp only
    rw [if_pos hmem, if_neg (by simp [hrb, hob, hfs])]
    dsimp only
    rw [hfs]
    dsimp only
    rw [hdec]
    dsimp only
    rw [if_pos ⟨hcn, hcf, hcr⟩]
    dsimp only
    rw [finish_record_eq env
      { o := RecPayload.handle (a.serve 0) (min a.master.CACHE_INFO content.length),
        size := hd.byteSize, frameRate := hd.frameRate,
        nchannels := hd.channelCount, sampleFormat := exposeFormat hd.sampleFormatId,
        duration := a.record.duration } w hw hden]
    exact ⟨_, rfl, rfl⟩
  · intro fuel env a fs renameBusy openBusy d w hnot hdecoder h1 h2 h3 h4 hw hden
    unfold handle_cached_record
    dsimp only
    rw [if_neg hnot, hdecoder]
    rw [cache_miss_rebuild_bytes a.record (a.serve 0) a.master.CACHE_INFO d fs []
      h1 h2 h3 h4]
    dsimp only
    rw [finish_record_eq env
      { o := RecPayload.handle (a.serve 0) a.master.CACHE_INFO,
        size := d.length + a.master.CACHE_INFO, frameRate := a.record.frameRate,
        nchannels := a.record.nchannels, sampleFormat := a.record.sampleFormat,
        duration := a.record.duration } w hw hden]
    exact ⟨_, rfl, rfl⟩

/-- C2 counterexample: a miss/rebuild run whose decoder returns a 4-byte
payload.  The returned record's size field and the byteSize value written
as the first header field are both 36 = 4 + CACHE_INFO, not the payload
length 4 excluding the header, refuting the claim on the miss/rebuild
path. -/
theorem c2_counterexample :
    (match handle_cached_record 1 testEnv argsC2 [] busyNone busyNone with
     | Except.ok (r, fs2, _) =>
        some (r.size, (fsLookup fs2 "p").map (List.take 8),
          (fsLookup fs2 "p").map (List.drop 32))
     | Except.error _ => none)
      = some (36, some (natToLEBytes 8 36), some [9, 9, 9, 9]) ∧
    (36 : Nat) ≠ 4 := by
  exact ⟨rfl, by decide⟩

/-- Witness for C2 on all four conjuncts: a mono identity sync (size =
payload length), a resynchronization run (stored rate 4000 against
target 8000; size and written byteSize = payload length 2), a reuse run
(size = stored byteSize 100), and a miss/rebuild run (size and written
byteSize = 4 + 32 = 36). -/
theorem c2_witness :
    (∃ rec', synchronize_audio testEnv
        { o := RecPayload.bytes [1, 2], size := 2, frameRate := 8000,
          nchannels := 1, sampleFormat := some 1, duration := 0 } 1 8000 1
        = Except.ok rec' ∧
      ∃ b, rec'.o = RecPayload.bytes b ∧ rec'.size = b.length) ∧
    (∃ r2, handle_cached_record 1 testEnv argsC2q fsS busyNone busyNone
        = Except.ok (r2,
            fsInsert fsS "q" (encodeHead [2, 8000, 1, 1] ++ [5, 6]), []) ∧
      r2.size = 2) ∧
    (∃ r2, handle_cached_record 1 testEnv argsC2q fsQ busyNone busyNone
        = Except.ok (r2, fsQ, []) ∧ r2.size = 100) ∧
    (∃ r2, handle_cached_record 1 testEnv argsC2 [] busyNone busyNone
        = Except.ok (r2,
            fsInsert [] "p" (encodeHead [36, 8000, 1, 1] ++ [9, 9, 9, 9]), []) ∧
      r2.size = 36) := by
  refine ⟨?_, ?_, ?_, ?_⟩
  · have hs := sync_identity_mono testEnv
      { o := RecPayload.bytes [1, 2], size := 2, frameRate := 8000,
        nchannels := 1, sampleFormat := some 1, duration := 0 } [1, 2] 8000 1 2
      rfl rfl rfl rfl rfl (by decide) (by decide) (by decide)
    exact ⟨_, hs, c2_theorem.1 testEnv _ 1 8000 1 _ hs⟩
  · exact c2_theorem.2.1 1 testEnv argsC2q fsS busyNone busyNone
      (encodeHead [2, 4000, 1, 1] ++ [5, 6]) [5, 6] ⟨2, 4000, 1, 1⟩
      { o := RecPayload.bytes [5, 6], size := 2, frameRate := 8000,
        nchannels := 1, sampleFormat := some 1,
        duration := ((2 : Nat) : ℚ) / ((8000 * 1 * 2 : Nat) : ℚ) } 2
      (by decide) rfl rfl rfl (by decide) (by decide) rfl rfl rfl
      (by decide) (by decide) (by decide) (by decide) rfl (by decide)
  · exact c2_theorem.2.2.1 1 testEnv argsC2q fsQ busyNone busyNone
      (encodeHead [100, 8000, 1, 1] ++ [7, 7]) ⟨100, 8000, 1, 1⟩ 2
      (by decide) rfl rfl rfl (by decide) rfl rfl rfl rfl (by decide)
  · exact c2_theorem.2.2.2 1 testEnv argsC2 [] busyNone busyNone [9, 9, 9, 9] 2
      (by decide) rfl (by decide) (by decide) (by decide) (by decide) rfl
      (by decide)
